import Mathlib

/-! Verification of the ROI aggregation function of the roi-calculator
repository (src/ROI_Calc.py, function calculate_roi_agentiq).

Numeric values are modelled as exact rationals; the Python ValueError raised
by the validation block is modelled as Except.error carrying the message
string; the Python string formatting f-spec ",.2f" (thousands separators,
two fraction digits, round to nearest) is modelled by formatComma2 below. -/

namespace ROICalc

/-- The 13 caller-supplied numeric parameters of calculate_roi_agentiq,
in the order of the Python parameter list (lines 32-36 of ROI_Calc.py). -/
structure InputRecord where
  revenue_increase : ℚ
  cost_savings : ℚ
  productivity_gains : ℚ
  development_costs : ℚ
  maintenance_costs : ℚ
  training_costs : ℚ
  licensing_costs : ℚ
  cloud_costs : ℚ
  support_ops_costs : ℚ
  people_removed : ℚ
  average_salary : ℚ
  time_saved_hours : ℚ
  hourly_rate : ℚ
deriving DecidableEq

/-- The dictionary returned by calculate_roi_agentiq (lines 78-85): six
formatted strings, in the order of the Python dict literal. -/
structure OutputRecord where
  total_benefits : String
  total_costs : String
  net_benefits : String
  roi_percent : String
  people_cost_reduction : String
  time_saved_value : String
deriving DecidableEq

/-- Line 66: time_saved_value = time_saved_hours * hourly_rate. -/
def time_saved_value (i : InputRecord) : ℚ :=
  i.time_saved_hours * i.hourly_rate

/-- Line 67: people_cost_reduction = people_removed * average_salary. -/
def people_cost_reduction (i : InputRecord) : ℚ :=
  i.people_removed * i.average_salary

/-- Line 68: total_benefits as the sum of the three revenue parameters and
the two derived benefit values. -/
def total_benefits (i : InputRecord) : ℚ :=
  i.revenue_increase + i.cost_savings + i.productivity_gains +
    time_saved_value i + people_cost_reduction i

/-- Lines 71-72: total_costs as the sum of the six cost parameters. -/
def total_costs (i : InputRecord) : ℚ :=
  i.development_costs + i.maintenance_costs + i.training_costs +
    i.licensing_costs + i.cloud_costs + i.support_ops_costs

/-- Line 75: net_benefits = total_benefits - total_costs. -/
def net_benefits (i : InputRecord) : ℚ :=
  total_benefits i - total_costs i

/-- Line 76: roi = (net_benefits / total_costs) * 100 if total_costs != 0
else 0. -/
def roi (i : InputRecord) : ℚ :=
  if total_costs i ≠ 0 then (net_benefits i / total_costs i) * 100 else 0

/-- The list of the 12 parameters checked by the `any` generator on
lines 57-60 (every parameter except people_removed, which line 62 checks
separately). -/
def mainParams (i : InputRecord) : List ℚ :=
  [i.revenue_increase, i.cost_savings, i.productivity_gains,
   i.development_costs, i.maintenance_costs, i.training_costs,
   i.licensing_costs, i.cloud_costs, i.support_ops_costs,
   i.average_salary, i.time_saved_hours, i.hourly_rate]

/-- All 13 input fields are non-negative (the precondition under which the
validation block on lines 56-63 raises nothing). -/
def validInput (i : InputRecord) : Prop :=
  0 ≤ i.revenue_increase ∧ 0 ≤ i.cost_savings ∧ 0 ≤ i.productivity_gains ∧
  0 ≤ i.development_costs ∧ 0 ≤ i.maintenance_costs ∧ 0 ≤ i.training_costs ∧
  0 ≤ i.licensing_costs ∧ 0 ≤ i.cloud_costs ∧ 0 ≤ i.support_ops_costs ∧
  0 ≤ i.people_removed ∧ 0 ≤ i.average_salary ∧ 0 ≤ i.time_saved_hours ∧
  0 ≤ i.hourly_rate

instance (i : InputRecord) : Decidable (validInput i) := by
  unfold validInput; infer_instance

/-- One decimal digit rendered as a character. Callers only pass values
below 10; the catch-all branch keeps the function total. -/
def digitChar (d : ℕ) : Char :=
  match d with
  | 0 => '0'
  | 1 => '1'
  | 2 => '2'
  | 3 => '3'
  | 4 => '4'
  | 5 => '5'
  | 6 => '6'
  | 7 => '7'
  | 8 => '8'
  | 9 => '9'
  | _ => '0'

/-- Base-10 digits of a natural number, least significant first, driven by
a fuel argument so that the recursion is structural. -/
def natDigitsAux : ℕ → ℕ → List ℕ
  | 0, _ => []
  | _ + 1, 0 => []
  | fuel + 1, n + 1 => (n + 1) % 10 :: natDigitsAux fuel ((n + 1) / 10)

/-- Base-10 digits of a natural number, least significant first, with 0
rendered as the single digit 0. -/
def natDigitsLE (n : ℕ) : List ℕ :=
  if n = 0 then [0] else natDigitsAux (n + 1) n

/-- Insert a comma after every three characters of a least-significant-first
digit list, as the thousands separators of the Python ",.2f" format do. -/
def commaGroupLE : List Char → List Char
  | c1 :: c2 :: c3 :: c4 :: rest => c1 :: c2 :: c3 :: ',' :: commaGroupLE (c4 :: rest)
  | l => l

/-- Round n / d to the nearest integer, ties to even, for natural n and d.
This models the round-to-nearest step of Python float formatting applied to
the value scaled by 100. -/
def roundCentsHalfEven (n d : ℕ) : ℕ :=
  let w := n / d
  let r := n % d
  if d < 2 * r then w + 1
  else if 2 * r < d then w
  else if w % 2 = 0 then w else w + 1

/-- Render a non-negative amount of cents with an optional leading minus
sign: thousands-separated integer part, a point, two fraction digits. -/
def formatCents (b : Bool) (cents : ℕ) : String :=
  String.mk ((if b then ['-'] else []) ++
    (commaGroupLE ((natDigitsLE (cents / 100)).map digitChar)).reverse ++
    ('.' :: [digitChar (cents % 100 / 10), digitChar (cents % 100 % 10)]))

/-- The Python format f-spec ",.2f": optional leading minus sign, integer
part with thousands separators, a point, exactly two fraction digits,
rounding the value to the nearest hundredth. -/
def formatComma2 (q : ℚ) : String :=
  formatCents (decide (q.num < 0)) (roundCentsHalfEven (q.num.natAbs * 100) q.den)

/-- Check that a least-significant-first character list consists of groups
of three decimal digits separated by commas, ending in a final group of one
to three digits: the shape of an integer part written with thousands
separators, read in reverse. -/
def groupedRevOK : List Char → Bool
  | c1 :: c2 :: c3 :: c4 :: c5 :: rest =>
      c1.isDigit && c2.isDigit && c3.isDigit && decide (c4 = ',') &&
        groupedRevOK (c5 :: rest)
  | cs => decide (1 ≤ cs.length) && decide (cs.length ≤ 3) &&
      cs.all Char.isDigit

/-- Check that a character list (most significant character first) is an
unsigned decimal with thousands separators and exactly two fraction
digits: a grouped integer part, then one point, then two digits. -/
def unsignedMoneyOK (cs : List Char) : Bool :=
  match cs.reverse with
  | d2 :: d1 :: c :: intRev =>
      d1.isDigit && d2.isDigit && decide (c = '.') && groupedRevOK intRev
  | _ => false

/-- unsignedMoneyOK up to one optional leading minus sign. -/
def moneyCharsOK : List Char → Bool
  | c :: rest => if c = '-' then unsignedMoneyOK rest
                 else unsignedMoneyOK (c :: rest)
  | [] => false

/-- The output string format of the specification, section 3: a formatted
decimal with thousands separators and two fraction digits, possibly with a
leading minus sign. -/
def isMoneyFormat (s : String) : Bool := moneyCharsOK s.data

/-- Lines 56-85: the whole function. The two validation branches reproduce
the two raise statements (lines 57-63); the returned record applies the
",.2f" format to the six derived metrics (lines 78-85). -/
def calculate_roi_agentiq (i : InputRecord) : Except String OutputRecord :=
  if (mainParams i).any (fun p => decide (p < 0)) then
    Except.error "Inputs must be non-negative values."
  else if i.people_removed < 0 then
    Except.error "Number of people removed cannot be negative."
  else
    Except.ok
      { total_benefits := formatComma2 (total_benefits i)
        total_costs := formatComma2 (total_costs i)
        net_benefits := formatComma2 (net_benefits i)
        roi_percent := formatComma2 (roi i)
        people_cost_reduction := formatComma2 (people_cost_reduction i)
        time_saved_value := formatComma2 (time_saved_value i) }

/-- Scenario B of the specification, section 8. -/
def scenarioB : InputRecord :=
  ⟨100000, 50000, 30000, 80000, 20000, 10000, 15000, 20000, 10000,
   5, 60000, 2000, 50⟩

/-- The output record of Scenario B. -/
def scenarioBOut : OutputRecord :=
  ⟨"580,000.00", "155,000.00", "425,000.00", "274.19", "300,000.00",
   "100,000.00"⟩

/-- The all-zero input. -/
def zeroInput : InputRecord := ⟨0, 0, 0, 0, 0, 0, 0, 0, 0, 0, 0, 0, 0⟩

/-- An input with one unit of cost and no benefits. -/
def costOnlyInput : InputRecord := ⟨0, 0, 0, 1, 0, 0, 0, 0, 0, 0, 0, 0, 0⟩

/-- Scenario B with a fractional number of people removed. -/
def scenarioBHalf : InputRecord :=
  ⟨100000, 50000, 30000, 80000, 20000, 10000, 15000, 20000, 10000,
   mkRat 5 2, 60000, 2000, 50⟩

/-- At least one of the 13 input fields is negative. -/
def someFieldNegative (i : InputRecord) : Prop :=
  i.revenue_increase < 0 ∨ i.cost_savings < 0 ∨ i.productivity_gains < 0 ∨
  i.development_costs < 0 ∨ i.maintenance_costs < 0 ∨ i.training_costs < 0 ∨
  i.licensing_costs < 0 ∨ i.cloud_costs < 0 ∨ i.support_ops_costs < 0 ∨
  i.people_removed < 0 ∨ i.average_salary < 0 ∨ i.time_saved_hours < 0 ∨
  i.hourly_rate < 0

theorem mainParams_any_iff (i : InputRecord) :
    (mainParams i).any (fun p => decide (p < 0)) = true ↔
      (i.revenue_increase < 0 ∨ i.cost_savings < 0 ∨ i.productivity_gains < 0 ∨
       i.development_costs < 0 ∨ i.maintenance_costs < 0 ∨ i.training_costs < 0 ∨
       i.licensing_costs < 0 ∨ i.cloud_costs < 0 ∨ i.support_ops_costs < 0 ∨
       i.average_salary < 0 ∨ i.time_saved_hours < 0 ∨ i.hourly_rate < 0) := by
  simp [mainParams]

theorem not_validInput_iff (i : InputRecord) :
    ¬ validInput i ↔ someFieldNegative i := by
  unfold validInput someFieldNegative
  simp only [not_and_or, not_le]

theorem mainParams_any_eq_false (i : InputRecord) (h : validInput i) :
    (mainParams i).any (fun p => decide (p < 0)) = false := by
  obtain ⟨h1, h2, h3, h4, h5, h6, h7, h8, h9, h10, h11, h12, h13⟩ := h
  rw [← Bool.not_eq_true]
  intro hA
  rcases (mainParams_any_iff i).1 hA with h | h | h | h | h | h | h | h | h | h | h | h
  all_goals linarith

theorem calculate_eq_ok (i : InputRecord) (h : validInput i) :
    calculate_roi_agentiq i = Except.ok
      { total_benefits := formatComma2 (total_benefits i)
        total_costs := formatComma2 (total_costs i)
        net_benefits := formatComma2 (net_benefits i)
        roi_percent := formatComma2 (roi i)
        people_cost_reduction := formatComma2 (people_cost_reduction i)
        time_saved_value := formatComma2 (time_saved_value i) } := by
  unfold calculate_roi_agentiq
  rw [mainParams_any_eq_false i h]
  rw [if_neg (not_lt.2 h.2.2.2.2.2.2.2.2.2.1)]
  simp

theorem total_benefits_nonneg (i : InputRecord) (h : validInput i) :
    0 ≤ total_benefits i := by
  obtain ⟨h1, h2, h3, h4, h5, h6, h7, h8, h9, h10, h11, h12, h13⟩ := h
  unfold total_benefits time_saved_value people_cost_reduction
  exact add_nonneg (add_nonneg (add_nonneg (add_nonneg h1 h2) h3)
    (mul_nonneg h12 h13)) (mul_nonneg h10 h11)

theorem scenarioB_tsv : time_saved_value scenarioB = 100000 := by
  norm_num [time_saved_value, scenarioB]

theorem scenarioB_pcr : people_cost_reduction scenarioB = 300000 := by
  norm_num [people_cost_reduction, scenarioB]

theorem scenarioB_tb : total_benefits scenarioB = 580000 := by
  norm_num [total_benefits, time_saved_value, people_cost_reduction, scenarioB]

theorem scenarioB_tc : total_costs scenarioB = 155000 := by
  norm_num [total_costs, scenarioB]

theorem scenarioB_nb : net_benefits scenarioB = 425000 := by
  rw [net_benefits, scenarioB_tb, scenarioB_tc]
  norm_num

theorem scenarioB_roi : roi scenarioB = 8500 / 31 := by
  unfold roi
  rw [if_pos (by rw [scenarioB_tc]; norm_num)]
  rw [scenarioB_nb, scenarioB_tc]
  norm_num

theorem calc_scenarioB_eq :
    calculate_roi_agentiq scenarioB = Except.ok scenarioBOut := by
  rw [calculate_eq_ok scenarioB (by decide)]
  have hroi : roi scenarioB = Rat.divInt 8500 31 := by
    rw [Rat.divInt_eq_div, scenarioB_roi]
    norm_num
  rw [scenarioB_tb, scenarioB_tc, scenarioB_nb, scenarioB_pcr, scenarioB_tsv,
    hroi]
  exact congrArg Except.ok (by decide)

/-- C1: for every input whose 13 fields are all non-negative, the derived
metrics satisfy the four aggregation formulas of lines 66-72:
time_saved_value = time_saved_hours * hourly_rate, people_cost_reduction =
people_removed * average_salary, total_benefits is the sum of the three
revenue fields and the two derived benefit values, and total_costs is the
sum of the six cost fields. -/
theorem c1_metric_formulas (i : InputRecord) (hv : validInput i) :
    time_saved_value i = i.time_saved_hours * i.hourly_rate ∧
    people_cost_reduction i = i.people_removed * i.average_salary ∧
    total_benefits i = i.revenue_increase + i.cost_savings +
      i.productivity_gains + time_saved_value i + people_cost_reduction i ∧
    total_costs i = i.development_costs + i.maintenance_costs +
      i.training_costs + i.licensing_costs + i.cloud_costs +
      i.support_ops_costs :=
  ⟨rfl, rfl, rfl, rfl⟩

theorem c1_metric_formulas_witness :
    validInput scenarioB ∧
    (time_saved_value scenarioB =
        scenarioB.time_saved_hours * scenarioB.hourly_rate ∧
      people_cost_reduction scenarioB =
        scenarioB.people_removed * scenarioB.average_salary ∧
      total_benefits scenarioB = scenarioB.revenue_increase +
        scenarioB.cost_savings + scenarioB.productivity_gains +
        time_saved_value scenarioB + people_cost_reduction scenarioB ∧
      total_costs scenarioB = scenarioB.development_costs +
        scenarioB.maintenance_costs + scenarioB.training_costs +
        scenarioB.licensing_costs + scenarioB.cloud_costs +
        scenarioB.support_ops_costs) :=
  ⟨by decide, c1_metric_formulas scenarioB (by decide)⟩

/-- C2: calculate_roi_agentiq fails (with the ValueError of lines 57-63,
modelled as Except.error) exactly when at least one of the 13 input fields
is negative, and on an all-non-negative input it returns an output
record. -/
theorem c2_validation (i : InputRecord) :
    ((∃ e, calculate_roi_agentiq i = Except.error e) ↔ someFieldNegative i) ∧
    (validInput i → ∃ o, calculate_roi_agentiq i = Except.ok o) := by
  refine ⟨?_, fun hv => ⟨_, calculate_eq_ok i hv⟩⟩
  rw [← not_validInput_iff]
  by_cases hv : validInput i
  · simp only [hv, not_true_eq_false, iff_false, not_exists]
    intro e he
    rw [calculate_eq_ok i hv] at he
    cases he
  · simp only [hv, not_false_eq_true, iff_true]
    unfold calculate_roi_agentiq
    by_cases hA : (mainParams i).any (fun p => decide (p < 0)) = true
    · exact ⟨_, by rw [if_pos hA]⟩
    · have hA' := hA
      rw [mainParams_any_iff] at hA'
      have hp : i.people_removed < 0 := by
        rcases (not_validInput_iff i).1 hv with
          h | h | h | h | h | h | h | h | h | h | h | h | h
        all_goals tauto
      exact ⟨_, by rw [if_neg hA, if_pos hp]⟩

theorem c2_validation_witness :
    validInput scenarioB ∧
    ∃ o, calculate_roi_agentiq scenarioB = Except.ok o :=
  ⟨by decide, (c2_validation scenarioB).2 (by decide)⟩

/-- C3: on a valid input with total_costs equal to zero the guard of
line 76 takes its else branch, so roi is 0 and the call succeeds, with the
roi_percent field formatted as the string 0.00. -/
theorem c3_zero_costs (i : InputRecord) (hv : validInput i)
    (h0 : total_costs i = 0) :
    roi i = 0 ∧ ∃ o, calculate_roi_agentiq i = Except.ok o ∧
      o.roi_percent = "0.00" := by
  have hroi : roi i = 0 := by
    unfold roi
    rw [if_neg (by simp [h0])]
  refine ⟨hroi, ⟨_, calculate_eq_ok i hv, ?_⟩⟩
  show formatComma2 (roi i) = "0.00"
  rw [hroi]
  decide

theorem c3_zero_costs_witness :
    validInput zeroInput ∧ total_costs zeroInput = 0 ∧ roi zeroInput = 0 ∧
    ∃ o, calculate_roi_agentiq zeroInput = Except.ok o ∧
      o.roi_percent = "0.00" :=
  ⟨by decide, by norm_num [total_costs, zeroInput],
    c3_zero_costs zeroInput (by decide)
      (by norm_num [total_costs, zeroInput])⟩

/-- C4: on a valid input with total_costs not zero, the guard of line 76
takes its then branch, so roi equals (net_benefits / total_costs) * 100
exactly (in the exact rational model). -/
theorem c4_roi_division (i : InputRecord) (hv : validInput i)
    (h0 : total_costs i ≠ 0) :
    roi i = (net_benefits i / total_costs i) * 100 := by
  unfold roi
  rw [if_pos h0]

theorem c4_roi_division_witness :
    validInput scenarioB ∧ total_costs scenarioB ≠ 0 ∧
    roi scenarioB = (net_benefits scenarioB / total_costs scenarioB) * 100 :=
  ⟨by decide, by rw [scenarioB_tc]; norm_num,
    c4_roi_division scenarioB (by decide) (by rw [scenarioB_tc]; norm_num)⟩

/-- C5: net_benefits equals total_benefits minus total_costs exactly; no
rounding enters the computation, and the two-decimal formatting is applied
only when the output record is built, to that exact difference. -/
theorem c5_net_benefits_exact (i : InputRecord) (hv : validInput i) :
    net_benefits i = total_benefits i - total_costs i ∧
    ∀ o, calculate_roi_agentiq i = Except.ok o →
      o.net_benefits = formatComma2 (total_benefits i - total_costs i) := by
  refine ⟨rfl, fun o ho => ?_⟩
  rw [calculate_eq_ok i hv] at ho
  cases ho
  rfl

theorem c5_net_benefits_exact_witness :
    validInput scenarioB ∧
    (net_benefits scenarioB = total_benefits scenarioB -
        total_costs scenarioB ∧
      ∀ o, calculate_roi_agentiq scenarioB = Except.ok o →
        o.net_benefits =
          formatComma2 (total_benefits scenarioB - total_costs scenarioB)) :=
  ⟨by decide, c5_net_benefits_exact scenarioB (by decide)⟩

/-- C6: the function is deterministic and shares no state between calls:
two inputs that agree on all 13 fields produce identical results. -/
theorem c6_deterministic (i j : InputRecord)
    (h : i.revenue_increase = j.revenue_increase ∧
      i.cost_savings = j.cost_savings ∧
      i.productivity_gains = j.productivity_gains ∧
      i.development_costs = j.development_costs ∧
      i.maintenance_costs = j.maintenance_costs ∧
      i.training_costs = j.training_costs ∧
      i.licensing_costs = j.licensing_costs ∧
      i.cloud_costs = j.cloud_costs ∧
      i.support_ops_costs = j.support_ops_costs ∧
      i.people_removed = j.people_removed ∧
      i.average_salary = j.average_salary ∧
      i.time_saved_hours = j.time_saved_hours ∧
      i.hourly_rate = j.hourly_rate) :
    calculate_roi_agentiq i = calculate_roi_agentiq j := by
  obtain ⟨h1, h2, h3, h4, h5, h6, h7, h8, h9, h10, h11, h12, h13⟩ := h
  have hij : i = j := by
    cases i
    cases j
    simp_all
  rw [hij]

theorem c6_deterministic_witness :
    calculate_roi_agentiq scenarioB = calculate_roi_agentiq scenarioB :=
  c6_deterministic scenarioB scenarioB
    ⟨rfl, rfl, rfl, rfl, rfl, rfl, rfl, rfl, rfl, rfl, rfl, rfl, rfl⟩

/-- C8: on the Scenario B input the call succeeds with the stated metric
values; roi is within 0.01 of 274.19 and is rendered as the string
274.19. -/
theorem c8_scenarioB_values :
    time_saved_value scenarioB = 100000 ∧
    people_cost_reduction scenarioB = 300000 ∧
    total_benefits scenarioB = 580000 ∧
    total_costs scenarioB = 155000 ∧
    net_benefits scenarioB = 425000 ∧
    |roi scenarioB - 27419 / 100| < 1 / 100 ∧
    calculate_roi_agentiq scenarioB = Except.ok scenarioBOut := by
  refine ⟨scenarioB_tsv, scenarioB_pcr, scenarioB_tb, scenarioB_tc,
    scenarioB_nb, ?_, calc_scenarioB_eq⟩
  rw [scenarioB_roi]
  have hd : (8500 : ℚ) / 31 - 27419 / 100 = 11 / 3100 := by norm_num
  rw [hd, abs_of_pos (by norm_num)]
  norm_num

/-- C9: on a valid input with positive total_costs, roi is at least -100,
with equality exactly when total_benefits is 0, because the benefits side
is a sum of products of non-negative fields. -/
theorem c9_roi_lower_bound (i : InputRecord) (hv : validInput i)
    (hc : 0 < total_costs i) :
    -100 ≤ roi i ∧ (roi i = -100 ↔ total_benefits i = 0) := by
  have htb := total_benefits_nonneg i hv
  have hne : total_costs i ≠ 0 := ne_of_gt hc
  have hkey : roi i = (total_benefits i / total_costs i) * 100 - 100 := by
    unfold roi
    rw [if_pos hne]
    unfold net_benefits
    field_simp
    ring
  have hdiv : 0 ≤ total_benefits i / total_costs i := div_nonneg htb hc.le
  constructor
  · rw [hkey]
    nlinarith
  · rw [hkey]
    constructor
    · intro h
      have hz : total_benefits i / total_costs i = 0 := by nlinarith
      rcases div_eq_zero_iff.1 hz with h0 | h0
      · exact h0
      · exact absurd h0 hne
    · intro h
      rw [h]
      simp

theorem c9_roi_lower_bound_witness :
    validInput costOnlyInput ∧ 0 < total_costs costOnlyInput ∧
    (-100 ≤ roi costOnlyInput ∧
      (roi costOnlyInput = -100 ↔ total_benefits costOnlyInput = 0)) :=
  ⟨by decide, by norm_num [total_costs, costOnlyInput],
    c9_roi_lower_bound costOnlyInput (by decide)
      (by norm_num [total_costs, costOnlyInput])⟩

/-- C10: the function imposes no integrality constraint on people_removed:
any non-negative numeric value passes the validation of line 62, the call
succeeds, and people_cost_reduction is people_removed * average_salary. -/
theorem c10_no_integrality (i : InputRecord) (hv : validInput i) :
    (∃ o, calculate_roi_agentiq i = Except.ok o) ∧
    people_cost_reduction i = i.people_removed * i.average_salary :=
  ⟨⟨_, calculate_eq_ok i hv⟩, rfl⟩

theorem digitChar_isDigit (d : ℕ) : (digitChar d).isDigit = true := by
  unfold digitChar
  split <;> decide

theorem natDigitsLE_ne_nil (n : ℕ) : natDigitsLE n ≠ [] := by
  cases n with
  | zero => simp [natDigitsLE]
  | succ m => simp [natDigitsLE, natDigitsAux]

theorem commaGroupLE_ne_nil : ∀ cs : List Char, cs ≠ [] → commaGroupLE cs ≠ []
  | [], h => absurd rfl h
  | [c1], _ => by simp [commaGroupLE]
  | [c1, c2], _ => by simp [commaGroupLE]
  | [c1, c2, c3], _ => by simp [commaGroupLE]
  | c1 :: c2 :: c3 :: c4 :: rest, _ => by simp [commaGroupLE]

theorem mem_commaGroupLE :
    ∀ (cs : List Char) (c : Char), c ∈ commaGroupLE cs → c ∈ cs ∨ c = ','
  | [], _, h => Or.inl h
  | [c1], _, h => Or.inl h
  | [c1, c2], _, h => Or.inl h
  | [c1, c2, c3], _, h => Or.inl h
  | c1 :: c2 :: c3 :: c4 :: rest, c, h => by
      rw [show commaGroupLE (c1 :: c2 :: c3 :: c4 :: rest) =
        c1 :: c2 :: c3 :: ',' :: commaGroupLE (c4 :: rest) from rfl] at h
      simp only [List.mem_cons] at h ⊢
      rcases h with h | h | h | h | h
      · exact Or.inl (Or.inl h)
      · exact Or.inl (Or.inr (Or.inl h))
      · exact Or.inl (Or.inr (Or.inr (Or.inl h)))
      · exact Or.inr h
      · rcases mem_commaGroupLE (c4 :: rest) c h with h2 | h2
        · simp only [List.mem_cons] at h2
          rcases h2 with h2 | h2
          · exact Or.inl (Or.inr (Or.inr (Or.inr (Or.inl h2))))
          · exact Or.inl (Or.inr (Or.inr (Or.inr (Or.inr h2))))
        · exact Or.inr h2

theorem groupedRevOK_commaGroupLE :
    ∀ cs : List Char, cs ≠ [] → cs.all Char.isDigit = true →
      groupedRevOK (commaGroupLE cs) = true
  | [], h, _ => absurd rfl h
  | [c1], _, hd => by
      simp [commaGroupLE, groupedRevOK] at hd ⊢
      exact hd
  | [c1, c2], _, hd => by
      simp [commaGroupLE, groupedRevOK] at hd ⊢
      exact hd
  | [c1, c2, c3], _, hd => by
      simp [commaGroupLE, groupedRevOK] at hd ⊢
      exact hd
  | c1 :: c2 :: c3 :: c4 :: rest, _, hd => by
      simp only [List.all_cons, Bool.and_eq_true] at hd
      obtain ⟨hd1, hd2, hd3, hd4⟩ := hd
      have hne := commaGroupLE_ne_nil (c4 :: rest) (by simp)
      obtain ⟨y, ys, hy⟩ : ∃ y ys, commaGroupLE (c4 :: rest) = y :: ys := by
        rcases hcg : commaGroupLE (c4 :: rest) with _ | ⟨y, ys⟩
        · exact absurd hcg hne
        · exact ⟨y, ys, rfl⟩
      have ih : groupedRevOK (commaGroupLE (c4 :: rest)) = true :=
        groupedRevOK_commaGroupLE (c4 :: rest) (by simp)
          (by simp only [List.all_cons, Bool.and_eq_true]; exact hd4)
      rw [show commaGroupLE (c1 :: c2 :: c3 :: c4 :: rest) =
        c1 :: c2 :: c3 :: ',' :: commaGroupLE (c4 :: rest) from rfl, hy]
      rw [hy] at ih
      simp only [groupedRevOK, Bool.and_eq_true, decide_eq_true_eq]
      exact ⟨⟨⟨⟨hd1, hd2⟩, hd3⟩, trivial⟩, ih⟩

theorem moneyCharsOK_formatCents (b : Bool) (cents : ℕ) :
    isMoneyFormat (formatCents b cents) = true := by
  have hX1 : (natDigitsLE (cents / 100)).map digitChar ≠ [] := by
    intro h
    exact natDigitsLE_ne_nil (cents / 100) (List.map_eq_nil_iff.1 h)
  have hX2 : ((natDigitsLE (cents / 100)).map digitChar).all Char.isDigit
      = true := by
    rw [List.all_eq_true]
    intro c hc
    rcases List.mem_map.1 hc with ⟨d, _, rfl⟩
    exact digitChar_isDigit d
  have hG := groupedRevOK_commaGroupLE _ hX1 hX2
  have hne := commaGroupLE_ne_nil _ hX1
  obtain ⟨z, zs, hz⟩ : ∃ z zs,
      (commaGroupLE ((natDigitsLE (cents / 100)).map digitChar)).reverse
        = z :: zs := by
    rcases hr : (commaGroupLE ((natDigitsLE (cents / 100)).map
        digitChar)).reverse with _ | ⟨z, zs⟩
    · exact absurd (by simpa using congrArg List.reverse hr) hne
    · exact ⟨z, zs, rfl⟩
  have hzmem : z ∈ commaGroupLE ((natDigitsLE (cents / 100)).map
      digitChar) := by
    rw [← List.mem_reverse, hz]
    simp
  have hzdash : z ≠ '-' := by
    rcases mem_commaGroupLE _ _ hzmem with h | h
    · rcases List.mem_map.1 h with ⟨d, _, rfl⟩
      intro he
      have := digitChar_isDigit d
      rw [he] at this
      exact absurd this (by decide)
    · intro he
      exact absurd (he ▸ h) (by decide)
  have hzr : (z :: zs).reverse
      = commaGroupLE ((natDigitsLE (cents / 100)).map digitChar) := by
    rw [← hz, List.reverse_reverse]
  have hU : unsignedMoneyOK ((z :: zs) ++
      ('.' :: [digitChar (cents % 100 / 10), digitChar (cents % 100 % 10)]))
      = true := by
    unfold unsignedMoneyOK
    rw [List.reverse_append, hzr]
    simp [digitChar_isDigit, hG]
  have hdata : (formatCents b cents).data = (if b then ['-'] else []) ++
      (z :: zs) ++
      ('.' :: [digitChar (cents % 100 / 10), digitChar (cents % 100 % 10)])
      := by
    show (if b then ['-'] else []) ++
      (commaGroupLE ((natDigitsLE (cents / 100)).map digitChar)).reverse ++
      _ = _
    rw [hz]
  rw [show isMoneyFormat (formatCents b cents)
    = moneyCharsOK (formatCents b cents).data from rfl, hdata]
  cases b with
  | true =>
      show moneyCharsOK ('-' :: ((z :: zs) ++ _)) = true
      simp only [moneyCharsOK, if_pos]
      exact hU
  | false =>
      show moneyCharsOK (z :: (zs ++ _)) = true
      simp only [moneyCharsOK]
      rw [if_neg hzdash]
      exact hU

theorem isMoneyFormat_formatComma2 (q : ℚ) :
    isMoneyFormat (formatComma2 q) = true :=
  moneyCharsOK_formatCents (decide (q.num < 0))
    (roundCentsHalfEven (q.num.natAbs * 100) q.den)

theorem mem_formatCents (b : Bool) (cents : ℕ) (c : Char)
    (hc : c ∈ (formatCents b cents).data) :
    c.isDigit = true ∨ c = ',' ∨ c = '.' ∨ c = '-' := by
  have hc2 : c ∈ (if b then ['-'] else ([] : List Char)) ++
      (commaGroupLE ((natDigitsLE (cents / 100)).map digitChar)).reverse ++
      ('.' :: [digitChar (cents % 100 / 10), digitChar (cents % 100 % 10)])
      := hc
  simp only [List.mem_append, List.mem_reverse, List.mem_cons,
    List.mem_singleton, List.not_mem_nil, or_false] at hc2
  rcases hc2 with (hs | hg) | hp | h1 | h2
  · cases b with
    | true =>
        simp only [if_pos, List.mem_singleton] at hs
        exact Or.inr (Or.inr (Or.inr hs))
    | false => simp at hs
  · rcases mem_commaGroupLE _ _ hg with h | h
    · rcases List.mem_map.1 h with ⟨d, _, rfl⟩
      exact Or.inl (digitChar_isDigit d)
    · exact Or.inr (Or.inl h)
  · exact Or.inr (Or.inr (Or.inl hp))
  · rw [h1]
    exact Or.inl (digitChar_isDigit _)
  · rw [h2]
    exact Or.inl (digitChar_isDigit _)

theorem percent_not_mem_formatComma2 (q : ℚ) :
    '%' ∉ (formatComma2 q).data := by
  intro hc
  rcases mem_formatCents (decide (q.num < 0))
      (roundCentsHalfEven (q.num.natAbs * 100) q.den) _ hc with h | h | h | h
  · exact absurd h (by decide)
  · exact absurd h (by decide)
  · exact absurd h (by decide)
  · exact absurd h (by decide)

/-- C7: on a valid input every field of the returned record is a decimal
string with thousands separators and exactly two fraction digits, and the
roi_percent string carries no percent sign. -/
theorem c7_output_format (i : InputRecord) (o : OutputRecord)
    (hv : validInput i) (ho : calculate_roi_agentiq i = Except.ok o) :
    isMoneyFormat o.total_benefits = true ∧
    isMoneyFormat o.total_costs = true ∧
    isMoneyFormat o.net_benefits = true ∧
    isMoneyFormat o.roi_percent = true ∧
    isMoneyFormat o.people_cost_reduction = true ∧
    isMoneyFormat o.time_saved_value = true ∧
    '%' ∉ o.roi_percent.data := by
  rw [calculate_eq_ok i hv] at ho
  cases ho
  exact ⟨isMoneyFormat_formatComma2 _, isMoneyFormat_formatComma2 _,
    isMoneyFormat_formatComma2 _, isMoneyFormat_formatComma2 _,
    isMoneyFormat_formatComma2 _, isMoneyFormat_formatComma2 _,
    percent_not_mem_formatComma2 _⟩

theorem c7_output_format_witness :
    validInput scenarioB ∧
    calculate_roi_agentiq scenarioB = Except.ok scenarioBOut ∧
    (isMoneyFormat scenarioBOut.total_benefits = true ∧
      isMoneyFormat scenarioBOut.total_costs = true ∧
      isMoneyFormat scenarioBOut.net_benefits = true ∧
      isMoneyFormat scenarioBOut.roi_percent = true ∧
      isMoneyFormat scenarioBOut.people_cost_reduction = true ∧
      isMoneyFormat scenarioBOut.time_saved_value = true ∧
      '%' ∉ scenarioBOut.roi_percent.data) :=
  ⟨by decide, calc_scenarioB_eq,
    c7_output_format scenarioB scenarioBOut (by decide) calc_scenarioB_eq⟩

theorem c10_no_integrality_witness :
    validInput scenarioBHalf ∧
    ((∃ o, calculate_roi_agentiq scenarioBHalf = Except.ok o) ∧
      people_cost_reduction scenarioBHalf =
        scenarioBHalf.people_removed * scenarioBHalf.average_salary) :=
  ⟨by decide, c10_no_integrality scenarioBHalf (by decide)⟩

end ROICalc
